import Mathlib

set_option maxRecDepth 100000

/-!
Verification of the account-classification and statement-aggregation engine
of the UNA_compta repository against its specification.

The engine lives in two scripts:

* `bilan.py` — balance-sheet / P&L construction: a mutable dict `sheet`
  maps group keys to entry groups; `build_assets`, `build_liabilities`
  and `build_p_l` classify one `(account_name, balance)` pair by numeric
  code prefixes; `sum_all_entries` computes the totals.
* `suivie_budgétaire.py` — budget tracking: a config is a list of lines,
  each either a title or `[label, budget, accounts]`; balances of the
  listed accounts are summed per line, with an imbalance check and a
  missing-accounts scan.

Account codes (Python strings) are embedded as `List Char`; exact decimal
balances as `ℚ`.  Where the Python code performs binary floating-point
arithmetic (the suivie variant sums pandas float64 values), a 53-bit
round-to-nearest-even model `fl : ℚ → ℚ` is provided and the summation is
parameterised by the addition operator, so both the exact and the float64
semantics of the same source code can be examined.
-/

namespace UNA

/-- Account codes are modelled as lists of characters (Python strings are
character sequences, compared and sliced positionally). -/
abbrev AccountName := List Char

/-- One set of entries with its `balance` field, mirroring the dicts with
keys `entries` and `balance` built by `add_entry` / `add_entry_assets` in
`bilan.py`. -/
structure EntriesGroup where
  entries : List (AccountName × ℚ)
  balance : ℚ
deriving DecidableEq, Repr

/-- The two sub-columns of an assets line (`'brute'` and `'amort'` in
`bilan.py`). -/
structure AssetGroup where
  brute : EntriesGroup
  amort : EntriesGroup
deriving DecidableEq, Repr

/-- A value stored in the sheet dict: assets keys hold the two-column
variant, liabilities and P&L keys hold the simple variant. -/
inductive GroupVal where
  | simple (g : EntriesGroup)
  | asset (g : AssetGroup)
deriving DecidableEq, Repr

/-- The sheet dict of `bilan.py`, as an association list in insertion
order (Python dicts preserve insertion order). -/
abbrev Sheet := List (String × GroupVal)

/-- The `column` argument of `add_entry_assets` (`'brute'` or `'amort'`). -/
inductive Col where
  | brute
  | amort
deriving DecidableEq, Repr

/-- Dict lookup `sheet[key]` (as an option, to express `key not in sheet`). -/
def lookupSheet : Sheet → String → Option GroupVal
  | [], _ => none
  | p :: t, k => if p.1 = k then some p.2 else lookupSheet t k

/-- In-place update of the value stored at a key, leaving other keys and
the insertion order untouched (Python mutates the nested dict). -/
def updateKey (s : Sheet) (k : String) (f : GroupVal → GroupVal) : Sheet :=
  s.map (fun p => if p.1 = k then (p.1, f p.2) else p)

/-- Append an entry to the chosen sub-column of a two-column group. -/
def colAppend (c : Col) (e : AccountName × ℚ) (g : AssetGroup) : AssetGroup :=
  match c with
  | .brute => { g with brute := { g.brute with entries := g.brute.entries ++ [e] } }
  | .amort => { g with amort := { g.amort with entries := g.amort.entries ++ [e] } }

/-- Exact rational addition, written in the normalised `mkRat` form so
that concrete computations reduce in the kernel and the elaborator
(`Rat.add` is irreducible); `qadd_eq` below states that it is `+`. -/
def qadd (a b : ℚ) : ℚ :=
  mkRat (a.num * b.den + b.num * a.den) (a.den * b.den)

/-- Exact rational subtraction in `mkRat` form; `qsub_eq` states it is `-`. -/
def qsub (a b : ℚ) : ℚ :=
  mkRat (a.num * b.den - b.num * a.den) (a.den * b.den)

/-- Exact rational multiplication in `mkRat` form; `qmul_eq` states it is `*`. -/
def qmul (a b : ℚ) : ℚ :=
  mkRat (a.num * b.num) (a.den * b.den)

/-- The unset-balance sentinel of `add_entry_assets`: the literal
`-3.1415` of `bilan.py`, written as a quotient so that it reduces in the
kernel. -/
def sentinel : ℚ := mkRat (-31415) 10000

/-- `add_entry_assets` from `bilan.py`: if the key is absent, install a
fresh two-column group whose balances are the sentinel `-3.1415` ("because
zero would be a bit too easy to miss if unset", per the source comment),
then append the entry to the requested sub-column.  Assets keys only ever
hold `asset` values, so the `simple` branch is unreachable. -/
def add_entry_assets (s : Sheet) (c : Col) (k : String) (nm : AccountName) (b : ℚ) : Sheet :=
  let s' := if (lookupSheet s k).isNone then
      s ++ [(k, GroupVal.asset ⟨⟨[], sentinel⟩, ⟨[], sentinel⟩⟩)]
    else s
  updateKey s' k (fun v => match v with
    | .asset g => .asset (colAppend c (nm, b) g)
    | .simple g => .simple g)

/-- `add_to_assets` from `bilan.py`: `account_name[:len(str(p))] == str(p)`
guards the insertion.  The numeric rule code `p` appears here as the list
of its decimal digits, exactly `str(p)`. -/
def add_to_assets (s : Sheet) (pfx : List Char) (c : Col) (k : String) (nm : AccountName) (b : ℚ) : Sheet :=
  if nm.take pfx.length = pfx then add_entry_assets s c k nm b else s

/-- `add_entry` from `bilan.py` (liabilities and P&L side): if the key is
absent, install `{'entries': [], 'balance': 0}`, then append.  These keys
only ever hold `simple` values, so the `asset` branch is unreachable. -/
def add_entry (s : Sheet) (k : String) (nm : AccountName) (b : ℚ) : Sheet :=
  let s' := if (lookupSheet s k).isNone then s ++ [(k, GroupVal.simple ⟨[], 0⟩)] else s
  updateKey s' k (fun v => match v with
    | .simple g => .simple { g with entries := g.entries ++ [(nm, b)] }
    | .asset g => .asset g)

/-- `add_to_sheet` from `bilan.py`: prefix-guarded `add_entry`. -/
def add_to_sheet (s : Sheet) (pfx : List Char) (k : String) (nm : AccountName) (b : ℚ) : Sheet :=
  if nm.take pfx.length = pfx then add_entry s k nm b else s

/-- `sum_entries` from `bilan.py`: overwrite the `balance` field with the
left fold of `+` over the entries, starting from `Decimal(0.0)`. -/
def sum_entries (g : EntriesGroup) : EntriesGroup :=
  { g with balance := g.entries.foldl (fun a e => qadd a e.2) 0 }

/-- `sum_all_entries` from `bilan.py`: simple groups are summed directly;
two-column groups have both their `brute` and their `amort` sub-columns
summed (both sub-columns are always present, having been installed
together by `add_entry_assets`). -/
def sum_all_entries (s : Sheet) : Sheet :=
  s.map (fun p => (p.1, match p.2 with
    | .simple g => .simple (sum_entries g)
    | .asset g => .asset ⟨sum_entries g.brute, sum_entries g.amort⟩))

/-- `build_assets` from `bilan.py`, transcribed rule for rule (the two
Python `range` loops are unrolled).  The final block runs only when the
balance is strictly positive, and its `40` rule is additionally guarded by
`account_name[:4] != '4091'`. -/
def build_assets (s0 : Sheet) (nm : AccountName) (b : ℚ) : Sheet :=
  let s := add_to_assets s0 ['2','0','6'] .brute "immo_incorp__fonds_commercial" nm b
  let s := add_to_assets s ['2','0','7'] .brute "immo_incorp__fonds_commercial" nm b
  let s := add_to_assets s ['2','9','0','6'] .amort "immo_incorp__fonds_commercial" nm b
  let s := add_to_assets s ['2','9','0','9'] .amort "immo_incorp__fonds_commercial" nm b
  let s := add_to_assets s ['2','0','1'] .brute "immo_incorp__autres" nm b
  let s := add_to_assets s ['2','0','3'] .brute "immo_incorp__autres" nm b
  let s := add_to_assets s ['2','0','5'] .brute "immo_incorp__autres" nm b
  let s := add_to_assets s ['2','0','8'] .brute "immo_incorp__autres" nm b
  let s := add_to_assets s ['2','8','0'] .amort "immo_incorp__autres" nm b
  let s := add_to_assets s ['2','9','0','5'] .amort "immo_incorp__autres" nm b
  let s := add_to_assets s ['2','9','0','8'] .amort "immo_incorp__autres" nm b
  let s := add_to_assets s ['2','1'] .brute "immo_corp" nm b
  let s := add_to_assets s ['2','2'] .brute "immo_corp" nm b
  let s := add_to_assets s ['2','3'] .brute "immo_corp" nm b
  let s := add_to_assets s ['2','8','1'] .amort "immo_corp" nm b
  let s := add_to_assets s ['2','9','1'] .amort "immo_corp" nm b
  let s := add_to_assets s ['2','6'] .brute "immo_fin" nm b
  let s := add_to_assets s ['2','7'] .brute "immo_fin" nm b
  let s := add_to_assets s ['2','9','6'] .amort "immo_fin" nm b
  let s := add_to_assets s ['2','9','7'] .amort "immo_fin" nm b
  let s := add_to_assets s ['3','1'] .brute "stock_pas_marchandises" nm b
  let s := add_to_assets s ['3','2'] .brute "stock_pas_marchandises" nm b
  let s := add_to_assets s ['3','3'] .brute "stock_pas_marchandises" nm b
  let s := add_to_assets s ['3','4'] .brute "stock_pas_marchandises" nm b
  let s := add_to_assets s ['3','5'] .brute "stock_pas_marchandises" nm b
  let s := add_to_assets s ['3','9','1'] .amort "stock_pas_marchandises" nm b
  let s := add_to_assets s ['3','9','2'] .amort "stock_pas_marchandises" nm b
  let s := add_to_assets s ['3','9','3'] .amort "stock_pas_marchandises" nm b
  let s := add_to_assets s ['3','9','4'] .amort "stock_pas_marchandises" nm b
  let s := add_to_assets s ['3','9','5'] .amort "stock_pas_marchandises" nm b
  let s := add_to_assets s ['3','7'] .brute "stock_marchandises" nm b
  let s := add_to_assets s ['3','9','7'] .amort "stock_marchandises" nm b
  let s := add_to_assets s ['4','0','9','1'] .brute "avances" nm b
  let s := add_to_assets s ['4','9','1'] .amort "creances_clients" nm b
  let s := add_to_assets s ['5','0'] .brute "mobil_placement" nm b
  let s := add_to_assets s ['5','9','0'] .amort "mobil_placement" nm b
  let s := add_to_assets s ['5','4'] .brute "disponibilite_non_caisse" nm b
  let s := add_to_assets s ['5','8'] .brute "disponibilite_non_caisse" nm b
  let s := add_to_assets s ['5','3'] .brute "caisse" nm b
  let s := add_to_assets s ['4','8','6'] .brute "charges_constates_avance" nm b
  let s := add_to_assets s ['4','9','6'] .amort "creances_autres" nm b
  if 0 < b then
    let s := add_to_assets s ['4','1'] .brute "creances_clients" nm b
    let s := if nm.take 4 ≠ ['4','0','9','1'] then
        add_to_assets s ['4','0'] .brute "creances_autres" nm b
      else s
    let s := add_to_assets s ['4','2'] .brute "creances_autres" nm b
    let s := add_to_assets s ['4','3'] .brute "creances_autres" nm b
    let s := add_to_assets s ['4','4'] .brute "creances_autres" nm b
    let s := add_to_assets s ['4','5'] .brute "creances_autres" nm b
    let s := add_to_assets s ['4','6'] .brute "creances_autres" nm b
    add_to_assets s ['5','1'] .brute "disponibilite_non_caisse" nm b
  else s

/-- `build_liabilities` from `bilan.py`.  The final block runs only when
the balance is strictly negative, and its `41` rule is additionally
guarded by `account_name[:4] != '4191'`. -/
def build_liabilities (s0 : Sheet) (nm : AccountName) (b : ℚ) : Sheet :=
  let s := add_to_sheet s0 ['1','0','1'] "capital" nm b
  let s := add_to_sheet s ['1','0','8'] "capital" nm b
  let s := add_to_sheet s ['1','0','5'] "ecarts_de_reevaluation" nm b
  let s := add_to_sheet s ['1','0','6','1'] "reserves_legale" nm b
  let s := add_to_sheet s ['1','0','6','4'] "reserves_reglementaire" nm b
  let s := add_to_sheet s ['1','0','6','3'] "reserves_autre" nm b
  let s := add_to_sheet s ['1','0','6','8'] "reserves_autre" nm b
  let s := add_to_sheet s ['1','1','0'] "report_a_nouveau" nm b
  let s := add_to_sheet s ['1','1','9'] "report_a_nouveau" nm b
  let s := add_to_sheet s ['1','4'] "provisions_relgementees" nm b
  let s := add_to_sheet s ['1','5'] "provisions" nm b
  let s := add_to_sheet s ['1','6'] "dettes_emprunts" nm b
  let s := add_to_sheet s ['4','8','7'] "produits_constates_avance" nm b
  if b < 0 then
    let s := add_to_sheet s ['5','1'] "dettes_emprunts" nm b
    let s := add_to_sheet s ['4','1','9','1'] "dettes_avances" nm b
    let s := add_to_sheet s ['4','0'] "dettes_fournisseurs" nm b
    let s := if nm.take 4 ≠ ['4','1','9','1'] then
        add_to_sheet s ['4','1'] "dettes_autres" nm b
      else s
    let s := add_to_sheet s ['4','2'] "dettes_autres" nm b
    let s := add_to_sheet s ['4','3'] "dettes_autres" nm b
    let s := add_to_sheet s ['4','4'] "dettes_autres" nm b
    let s := add_to_sheet s ['4','5'] "dettes_autres" nm b
    add_to_sheet s ['4','6'] "dettes_autres" nm b
  else s

/-- `build_p_l` from `bilan.py`, transcribed rule for rule (the Python
loops over literal code lists are unrolled). -/
def build_p_l (s0 : Sheet) (nm : AccountName) (b : ℚ) : Sheet :=
  let s := add_to_sheet s0 ['6','0','7'] "achat_marchandises" nm b
  let s := add_to_sheet s ['6','0','9','7'] "achat_marchandises" nm b
  let s := add_to_sheet s ['6','0','3','7'] "variation_stocks" nm b
  let s := add_to_sheet s ['6','0','1'] "achats_approvisionnements" nm b
  let s := add_to_sheet s ['6','0','2'] "achats_approvisionnements" nm b
  let s := add_to_sheet s ['6','0','4'] "achats_approvisionnements" nm b
  let s := add_to_sheet s ['6','0','5'] "achats_approvisionnements" nm b
  let s := add_to_sheet s ['6','0','6'] "achats_approvisionnements" nm b
  let s := add_to_sheet s ['6','0','3','1'] "variation_stocks" nm b
  let s := add_to_sheet s ['6','0','3','2'] "variation_stocks" nm b
  let s := add_to_sheet s ['6','1'] "autres_charges_externes" nm b
  let s := add_to_sheet s ['6','2'] "autres_charges_externes" nm b
  let s := add_to_sheet s ['6','3'] "impots" nm b
  let s := add_to_sheet s ['6','4','1'] "remuneration" nm b
  let s := add_to_sheet s ['6','4','4'] "remuneration" nm b
  let s := add_to_sheet s ['6','4','5'] "charges_sociales" nm b
  let s := add_to_sheet s ['6','4','6'] "charges_sociales" nm b
  let s := add_to_sheet s ['6','8','1','1'] "dotations_amort" nm b
  let s := add_to_sheet s ['6','8','1','5'] "dotations_provisions" nm b
  let s := add_to_sheet s ['6','8','1','7'] "dotations_provisions" nm b
  let s := add_to_sheet s ['6','5'] "autres_charges" nm b
  let s := add_to_sheet s ['6','6'] "charges_financieres" nm b
  let s := add_to_sheet s ['6','8','6'] "charges_financieres" nm b
  let s := add_to_sheet s ['6','7'] "charges_exception" nm b
  let s := add_to_sheet s ['6','8','7'] "charges_exception" nm b
  let s := add_to_sheet s ['6','9','5'] "impots_benefices" nm b
  let s := add_to_sheet s ['6','9','7'] "impots_benefices" nm b
  let s := add_to_sheet s ['7','0','7'] "ventes_marchandises" nm b
  let s := add_to_sheet s ['7','0','9','7'] "ventes_marchandises" nm b
  let s := add_to_sheet s ['7','0','1'] "production_vendue" nm b
  let s := add_to_sheet s ['7','0','6'] "production_vendue" nm b
  let s := add_to_sheet s ['7','0','8'] "production_vendue" nm b
  let s := add_to_sheet s ['7','0','9','1'] "production_vendue" nm b
  let s := add_to_sheet s ['7','0','9','6'] "production_vendue" nm b
  let s := add_to_sheet s ['7','0','9','8'] "production_vendue" nm b
  let s := add_to_sheet s ['7','1','3'] "production_stockee" nm b
  let s := add_to_sheet s ['7','2'] "production_immobilisee" nm b
  let s := add_to_sheet s ['7','4'] "subvention_exploit" nm b
  let s := add_to_sheet s ['7','5'] "autre_produits" nm b
  let s := add_to_sheet s ['7','8','1'] "autre_produits" nm b
  let s := add_to_sheet s ['7','9','1'] "autre_produits" nm b
  let s := add_to_sheet s ['7','6'] "produits_financiers" nm b
  let s := add_to_sheet s ['7','8','6'] "produits_financiers" nm b
  let s := add_to_sheet s ['7','9','6'] "produits_financiers" nm b
  let s := add_to_sheet s ['7','7'] "produits_except" nm b
  let s := add_to_sheet s ['7','8','7'] "produits_except" nm b
  add_to_sheet s ['7','9','7'] "produits_except" nm b

/-- The classification of a single account, exactly as one iteration of
the loop in `construct_reports` applies it to the sheet (assets, then
liabilities, then P&L), starting from an empty sheet. -/
def oneAccountSheet (nm : AccountName) (b : ℚ) : Sheet :=
  build_p_l (build_liabilities (build_assets [] nm b) nm b) nm b

/-- Structural reformulation of the slice test
`account_name[:len(p)] == p`; used to let proofs evaluate rule guards on
an account name whose tail is symbolic. -/
def hasPfx : AccountName → List Char → Bool
  | _, [] => true
  | [], _ :: _ => false
  | c :: cs, p :: ps => c == p && hasPfx cs ps

/-- Observer: the entries of a simple (liabilities / P&L) group. -/
def simpleEntries (s : Sheet) (k : String) : List (AccountName × ℚ) :=
  match lookupSheet s k with
  | some (.simple g) => g.entries
  | _ => []

/-- Observer: the entries of one sub-column of a two-column assets group. -/
def assetColEntries (s : Sheet) (k : String) (c : Col) : List (AccountName × ℚ) :=
  match lookupSheet s k with
  | some (.asset g) =>
    match c with
    | .brute => g.brute.entries
    | .amort => g.amort.entries
  | _ => []

/-- A key of the sheet either is absent or holds a two-column assets
value (always the case for keys written by `add_entry_assets`). -/
def assetish (s : Sheet) (k : String) : Prop :=
  match lookupSheet s k with
  | none => True
  | some (.asset _) => True
  | some (.simple _) => False

/-- A key of the sheet either is absent or holds a simple value (always
the case for keys written by `add_entry`). -/
def simpleish (s : Sheet) (k : String) : Prop :=
  match lookupSheet s k with
  | none => True
  | some (.simple _) => True
  | some (.asset _) => False

/-! ### The presentation order of `bilan.py`

`simple_latex_section` renders `sorted(entries_group['entries'])` —
Python's stable sort of `(account_name, balance)` tuples under
lexicographic tuple comparison.  `assets_latex_section` first merges the
two sub-columns into a per-account table (later assignments to the same
account and column overwrite earlier ones, and missing columns default
to `0`), then renders the accounts in `sorted(table.keys())` order.
A stable sort's output is uniquely determined by the comparator, so the
sorts are modelled with insertion sort. -/

/-- Python tuple comparison on `(account_name, balance)` pairs:
lexicographic, first by account code, then by balance. -/
def pairLe (p q : AccountName × ℚ) : Prop :=
  p.1 < q.1 ∨ (p.1 = q.1 ∧ p.2 ≤ q.2)

instance : DecidableRel pairLe := fun p q => by
  unfold pairLe
  infer_instance

instance : IsTrans (AccountName × ℚ) pairLe where
  trans p q r hpq hqr := by
    rcases hpq with h1 | ⟨e1, le1⟩
    · rcases hqr with h2 | ⟨e2, le2⟩
      · exact Or.inl (lt_trans h1 h2)
      · exact Or.inl (by rw [← e2]; exact h1)
    · rcases hqr with h2 | ⟨e2, le2⟩
      · exact Or.inl (by rw [e1]; exact h2)
      · exact Or.inr ⟨e1.trans e2, le_trans le1 le2⟩

instance : IsTotal (AccountName × ℚ) pairLe where
  total p q := by
    rcases lt_trichotomy p.1 q.1 with h | h | h
    · exact Or.inl (Or.inl h)
    · rcases le_total p.2 q.2 with h2 | h2
      · exact Or.inl (Or.inr ⟨h, h2⟩)
      · exact Or.inr (Or.inr ⟨h.symm, h2⟩)
    · exact Or.inr (Or.inl h)

instance : IsAntisymm (AccountName × ℚ) pairLe where
  antisymm p q hpq hqp := by
    rcases hpq with h1 | ⟨e1, le1⟩
    · rcases hqp with h2 | ⟨e2, le2⟩
      · exact (lt_asymm h1 h2).elim
      · rw [e2] at h1
        exact (lt_irrefl _ h1).elim
    · rcases hqp with h2 | ⟨e2, le2⟩
      · rw [e1] at h2
        exact (lt_irrefl _ h2).elim
      · exact Prod.ext e1 (le_antisymm le1 le2)

/-- The rows of `simple_latex_section`, in presented order. -/
def simpleRows (g : EntriesGroup) : List (AccountName × ℚ) :=
  List.insertionSort pairLe g.entries

/-- The per-account, per-column table of `assets_latex_section`: the last
entry for the account in the column wins, a missing column defaults to 0. -/
def lastVal (l : List (AccountName × ℚ)) (a : AccountName) : ℚ :=
  ((l.filter (fun p => decide (p.1 = a))).getLast?).elim 0 (fun p => p.2)

/-- The account codes appearing in either sub-column of an assets group
(the keys of the `table` dict of `assets_latex_section`). -/
def assetKeys (g : AssetGroup) : List AccountName :=
  (g.brute.entries.map (fun p => p.1) ++ g.amort.entries.map (fun p => p.1)).dedup

/-- The rows of `assets_latex_section`, in presented order: for each
account, its gross value and its displayed (negated) amortisation value. -/
def assetRows (g : AssetGroup) : List (AccountName × ℚ × ℚ) :=
  (List.insertionSort (· ≤ ·) (assetKeys g)).map (fun a =>
    (a, lastVal g.brute.entries a, -(lastVal g.amort.entries a)))

/-! ### The budget-tracking variant (`suivie_budgétaire.py`)

Amounts in this script are produced by `pandas.read_csv` and are IEEE-754
binary64 floats; all summation is Python's builtin `sum`, a left fold of
`+` starting from `0`.  The functions below are therefore parameterised
by the addition operator: instantiating it with exact rational addition
gives the exact-decimal semantics the specification prescribes, and
instantiating it with `fadd` (round-to-nearest 53-bit addition, defined
further down) gives the float64 semantics the script actually executes. -/

/-- A line of the evaluated config: either `[title]` or
`[label, budget, accounts]`. -/
inductive CfgLine where
  | title (t : String)
  | item (label : String) (budget : ℚ) (accounts : List AccountName)
deriving DecidableEq, Repr

/-- A line of the computed balance-sheet column: either a title or
`[label, budget, realised]`. -/
inductive OutLine where
  | title (t : String)
  | item (label : String) (budget : ℚ) (realised : ℚ)
deriving DecidableEq, Repr

/-- The advisory reports printed by `get_balance_sheet_as_list` and
`scan_for_missing_accounts`, modelled as returned values. -/
inductive Warning where
  | imbalance (bookExpenses bookIncome displayExpenses displayIncome : ℚ)
  | missingAccounts (missing : List AccountName)
deriving DecidableEq, Repr

/-- Python's builtin `sum` over a list of amounts: a left fold of the
addition operator starting from `0`. -/
def pySum (add : ℚ → ℚ → ℚ) (l : List ℚ) : ℚ :=
  l.foldl add 0

/-- The balance of one config line in `compute_balance_sheet_list`:
`sum([balance for account, balance in balances.items() if account in
these_accounts])` — exact membership of the account code in the line's
account list. -/
def lineBalance (add : ℚ → ℚ → ℚ) (accs : List AccountName)
    (balances : List (AccountName × ℚ)) : ℚ :=
  pySum add ((balances.filter (fun p => decide (p.1 ∈ accs))).map (fun p => p.2))

/-- `compute_balance_sheet_list` from `suivie_budgétaire.py`: titles pass
through, item lines get the summed balance of their listed accounts. -/
def compute_balance_sheet_list (add : ℚ → ℚ → ℚ) (col : List CfgLine)
    (balances : List (AccountName × ℚ)) : List OutLine :=
  col.map (fun l => match l with
    | .title t => .title t
    | .item lbl budg accs => .item lbl budg (lineBalance add accs balances))

/-- The test `account[0] == c` of the Python scripts (account codes are
non-empty in every ledger export; on the empty string Python would raise
rather than return `False`). -/
def headIs (c : Char) (a : AccountName) : Bool :=
  match a with
  | [] => false
  | x :: _ => x == c

/-- Recomputed expense total: sum of the balances of accounts whose code
starts with `'6'` (`sum([v for k, v in balances.items() if k[0] == '6'])`). -/
def account_expenses (add : ℚ → ℚ → ℚ) (balances : List (AccountName × ℚ)) : ℚ :=
  pySum add ((balances.filter (fun p => headIs '6' p.1)).map (fun p => p.2))

/-- Recomputed income total: sum of the balances of accounts whose code
starts with `'7'`. -/
def account_income (add : ℚ → ℚ → ℚ) (balances : List (AccountName × ℚ)) : ℚ :=
  pySum add ((balances.filter (fun p => headIs '7' p.1)).map (fun p => p.2))

/-- Total of the realised amounts of the item lines of one computed
column (`sum([x[2] for x in col if len(x) == 3])`). -/
def itemSum (add : ℚ → ℚ → ℚ) (col : List OutLine) : ℚ :=
  pySum add (col.filterMap (fun l => match l with
    | .item _ _ v => some v
    | .title _ => none))

/-- All account codes listed by the item lines of a config
(`scan_for_missing_accounts` unions the account sets of every line of
length > 1). -/
def configAccounts (lines : List CfgLine) : List AccountName :=
  lines.foldl (fun acc l => match l with
    | .item _ _ accs => acc ++ accs
    | .title _ => acc) []

/-- `scan_for_missing_accounts` from `suivie_budgétaire.py`: the ledger
accounts whose code starts with `'6'` or `'7'` and which appear in no
config line are reported (the Python set difference is modelled as a
deduplicated filtered list); an empty difference reports nothing. -/
def scan_for_missing_accounts (lines : List CfgLine)
    (accts : List AccountName) : List Warning :=
  let cfgAccs := configAccounts lines
  let ie := accts.filter (fun a => headIs '6' a || headIs '7' a)
  let missing := (ie.filter (fun a => decide (a ∉ cfgAccs))).dedup
  if missing ≠ [] then [.missingAccounts missing] else []

/-- Round half to even at an integer (the rounding of `numpy.round`). -/
def rne (x : ℚ) : ℤ :=
  let f := x.floor
  let r := qsub x (mkRat f 1)
  if r < mkRat 1 2 then f
  else if mkRat 1 2 < r then f + 1
  else if f % 2 = 0 then f else f + 1

/-- `np.round(x, 2)`: round half to even at two decimal places. -/
def round2 (q : ℚ) : ℚ :=
  qmul (mkRat (rne (qmul q (mkRat 100 1))) 1) (mkRat 1 100)

/-- `get_balance_sheet_as_list` from `suivie_budgétaire.py`: compute both
columns, recompute the expense and income totals directly from the
balances, compare after rounding to two decimals, report an imbalance
warning carrying all four figures when they disagree, scan for missing
accounts, and return the statement in all cases. -/
def get_balance_sheet_as_list (add : ℚ → ℚ → ℚ)
    (cfg : List CfgLine × List CfgLine)
    (balances : List (AccountName × ℚ)) :
    (List OutLine × List OutLine) × List Warning :=
  let expenses := compute_balance_sheet_list add cfg.1 balances
  let income := compute_balance_sheet_list add cfg.2 balances
  let ae := account_expenses add balances
  let ai := account_income add balances
  let de := itemSum add expenses
  let di := itemSum add income
  let warns :=
    (if round2 ae ≠ round2 de ∨ round2 ai ≠ round2 di then
        [Warning.imbalance ae ai de di]
      else []) ++
    scan_for_missing_accounts (cfg.1 ++ cfg.2) (balances.map (fun p => p.1))
  ((expenses, income), warns)

/-- The label of the injected result line. -/
def resultLabel : String := "Résultat de l\x27exercice"

/-- `get_balance_sheet` from `suivie_budgétaire.py`: compute the
statement, then `result = -(sum_income + sum_expenses)` and
`balance_sheet[0].append(["Résultat de l'exercice", 0, result])` — the
result line is appended to the expense column unconditionally. -/
def get_balance_sheet (add : ℚ → ℚ → ℚ)
    (cfg : List CfgLine × List CfgLine)
    (balances : List (AccountName × ℚ)) :
    (List OutLine × List OutLine) × List Warning :=
  let r := get_balance_sheet_as_list add cfg balances
  let se := itemSum add r.1.1
  let si := itemSum add r.1.2
  let res := -(add si se)
  ((r.1.1 ++ [OutLine.item resultLabel 0 res], r.1.2), r.2)

/-! ### State-threaded pipelines

`construct_reports` (bilan) and `get_balance_sheet` (suivie) read a
mutable snapshot dict.  To express that the snapshot is never written,
the pipelines are also given in a form that carries the snapshot in the
run state; the source assigns only to the sheet / output, never to the
snapshot, and the embedding mirrors this. -/

/-- The run state of `construct_reports`: the snapshot handed in by
`get_account_balances` and the sheet dict being built. -/
structure BilanState where
  accounts : List (AccountName × ℚ)
  sheet : Sheet

/-- `construct_reports` from `bilan.py` (reporting/IO aside): for each
`(account_name, balance)` pair, apply the three builders to the sheet,
then sum all entries. -/
def construct_reports_state (st : BilanState) : BilanState :=
  let final := st.accounts.foldl
    (fun sh p => build_p_l (build_liabilities (build_assets sh p.1 p.2) p.1 p.2) p.1 p.2)
    st.sheet
  { st with sheet := sum_all_entries final }

/-- The pure sheet computation of `construct_reports`, as a function of
the snapshot alone. -/
def construct_reports_sheet (accounts : List (AccountName × ℚ)) (s0 : Sheet) : Sheet :=
  sum_all_entries (accounts.foldl
    (fun sh p => build_p_l (build_liabilities (build_assets sh p.1 p.2) p.1 p.2) p.1 p.2)
    s0)

/-- The run state of the suivie pipeline: the balances snapshot and the
computed statement with its validation report. -/
structure SuivieState where
  balances : List (AccountName × ℚ)
  output : Option ((List OutLine × List OutLine) × List Warning)

/-- The suivie pipeline threaded through the run state: reads the
balances, writes only the output. -/
def get_balance_sheet_state (add : ℚ → ℚ → ℚ)
    (cfg : List CfgLine × List CfgLine) (st : SuivieState) : SuivieState :=
  { st with output := some (get_balance_sheet add cfg st.balances) }

/-! ### A 53-bit binary floating-point model

`suivie_budgétaire.py` receives its amounts from `pandas.read_csv` as
IEEE-754 binary64 values and sums them with Python float addition.  For
amounts in the normal range this is exactly: round the ideal rational
result to the nearest dyadic rational with a 53-bit significand, ties to
even.  `fl` implements that rounding on `ℚ` (overflow and subnormals are
outside the range of any ledger figure and are not modelled), and `fadd`
is float64 addition. -/

/-- Floor of the base-2 logarithm of a natural number, by fuel-bounded
halving (kernel-reducible). -/
def log2fuel : ℕ → ℕ → ℕ
  | 0, _ => 0
  | fuel + 1, n => if n < 2 then 0 else log2fuel fuel (n / 2) + 1

/-- Floor of the base-2 logarithm (`natLog2 n = k` with `2^k ≤ n < 2^(k+1)`
for `n ≥ 1`). -/
def natLog2 (n : ℕ) : ℕ :=
  log2fuel n n

/-- Ceiling base-2 logarithm: the least `k` with `n ≤ 2^k`, for `n ≥ 1`. -/
def natClog2 (n : ℕ) : ℕ :=
  if n ≤ 1 then 0 else natLog2 (n - 1) + 1

/-- The exponent `e` with `2^e ≤ q < 2^(e+1)`, for positive `q`. -/
def exp2 (q : ℚ) : ℤ :=
  if 1 ≤ q then (natLog2 q.floor.toNat : ℤ)
  else -(natClog2 ((q.den + q.num.toNat - 1) / q.num.toNat) : ℤ)

/-- `2^k` as a rational, for an integer exponent, written with `mkRat`
so that it reduces in the kernel. -/
def qpow2 (k : ℤ) : ℚ :=
  if 0 ≤ k then mkRat ((2 : ℤ) ^ k.toNat) 1 else mkRat 1 (2 ^ (-k).toNat)

/-- Round a rational to the nearest binary64 value (53-bit significand,
ties to even, unbounded exponent). -/
def fl (q : ℚ) : ℚ :=
  if q = 0 then 0
  else
    let e := if 0 < q then exp2 q else exp2 (-q)
    let u := 52 - e
    qmul (mkRat (rne (qmul q (qpow2 u))) 1) (qpow2 (-u))

/-- Python float addition: exact rational addition followed by binary64
rounding. -/
def fadd (a b : ℚ) : ℚ :=
  fl (qadd a b)

/-! ## Theorems -/

theorem qadd_eq (a b : ℚ) : qadd a b = a + b :=
  (Rat.add_def' a b).symm

theorem qsub_eq (a b : ℚ) : qsub a b = a - b :=
  (Rat.sub_def' a b).symm

theorem qmul_eq (a b : ℚ) : qmul a b = a * b := by
  rw [qmul, Rat.mul_def, Rat.normalize_eq_mkRat]

theorem take_eq_iff_hasPfx (nm p : AccountName) :
    nm.take p.length = p ↔ hasPfx nm p = true := by
  induction p generalizing nm with
  | nil => simp [hasPfx]
  | cons x xs ih =>
    cases nm with
    | nil => simp [hasPfx]
    | cons c cs => simp [hasPfx, List.take, ih]

theorem take_eq_hasPfx2 (nm : AccountName) (a b : Char) :
    (nm.take 2 = [a, b]) ↔ hasPfx nm [a, b] = true := by
  simpa using take_eq_iff_hasPfx nm [a, b]

theorem take_eq_hasPfx3 (nm : AccountName) (a b c : Char) :
    (nm.take 3 = [a, b, c]) ↔ hasPfx nm [a, b, c] = true := by
  simpa using take_eq_iff_hasPfx nm [a, b, c]

theorem take_eq_hasPfx4 (nm : AccountName) (a b c d : Char) :
    (nm.take 4 = [a, b, c, d]) ↔ hasPfx nm [a, b, c, d] = true := by
  simpa using take_eq_iff_hasPfx nm [a, b, c, d]

theorem take_two_shape {nm : AccountName} {a b : Char}
    (h : nm.take 2 = [a, b]) : ∃ r, nm = a :: b :: r := by
  match nm, h with
  | x :: y :: r, h =>
    simp only [List.take, List.cons.injEq] at h
    obtain ⟨rfl, rfl, -⟩ := h
    exact ⟨r, rfl⟩

theorem take_four_shape {nm : AccountName} {a b c d : Char}
    (h : nm.take 4 = [a, b, c, d]) : ∃ r, nm = a :: b :: c :: d :: r := by
  match nm, h with
  | x :: y :: z :: w :: r, h =>
    simp only [List.take, List.cons.injEq] at h
    obtain ⟨rfl, rfl, rfl, rfl, -⟩ := h
    exact ⟨r, rfl⟩

theorem lookupSheet_updateKey_ne {s : Sheet} {k k' : String}
    (f : GroupVal → GroupVal) (h : k' ≠ k) :
    lookupSheet (updateKey s k f) k' = lookupSheet s k' := by
  induction s with
  | nil => rfl
  | cons p t ih =>
    simp only [updateKey, List.map_cons, lookupSheet]
    by_cases hpk : p.1 = k
    · rw [if_pos hpk]
      have hne : ¬ p.1 = k' := fun hc => h ((hc ▸ hpk : k' = k))
      rw [if_neg hne, if_neg hne]
      exact ih
    · rw [if_neg hpk]
      by_cases hpk' : p.1 = k'
      · rw [if_pos hpk', if_pos hpk']
      · rw [if_neg hpk', if_neg hpk']
        exact ih

theorem lookupSheet_updateKey_eq (s : Sheet) (k : String)
    (f : GroupVal → GroupVal) :
    lookupSheet (updateKey s k f) k = (lookupSheet s k).map f := by
  induction s with
  | nil => rfl
  | cons p t ih =>
    simp only [updateKey, List.map_cons, lookupSheet]
    by_cases hpk : p.1 = k
    · rw [if_pos hpk, if_pos hpk, if_pos hpk]
      rfl
    · rw [if_neg hpk, if_neg hpk, if_neg hpk]
      exact ih

theorem lookupSheet_append_ne {s : Sheet} {k k' : String} (v : GroupVal)
    (h : k' ≠ k) :
    lookupSheet (s ++ [(k, v)]) k' = lookupSheet s k' := by
  induction s with
  | nil =>
    simp only [List.nil_append, lookupSheet]
    rw [if_neg (fun hc : k = k' => h hc.symm)]
  | cons p t ih =>
    simp only [List.cons_append, lookupSheet]
    by_cases hpk' : p.1 = k'
    · rw [if_pos hpk', if_pos hpk']
    · rw [if_neg hpk', if_neg hpk']
      exact ih

theorem lookupSheet_append_eq {s : Sheet} {k : String} (v : GroupVal)
    (h : lookupSheet s k = none) :
    lookupSheet (s ++ [(k, v)]) k = some v := by
  induction s with
  | nil => simp [lookupSheet]
  | cons p t ih =>
    simp only [lookupSheet, List.cons_append] at h ⊢
    by_cases hpk : p.1 = k
    · rw [if_pos hpk] at h
      exact absurd h (by simp)
    · rw [if_neg hpk] at h ⊢
      exact ih h

theorem add_entry_assets_lookup_ne (s : Sheet) (c : Col) {k k' : String}
    (nm : AccountName) (b : ℚ) (h : k' ≠ k) :
    lookupSheet (add_entry_assets s c k nm b) k' = lookupSheet s k' := by
  simp only [add_entry_assets]
  by_cases hn : (lookupSheet s k).isNone
  · rw [if_pos hn, lookupSheet_updateKey_ne _ h, lookupSheet_append_ne _ h]
  · rw [if_neg hn]
    exact lookupSheet_updateKey_ne _ h

theorem add_entry_lookup_ne (s : Sheet) {k k' : String}
    (nm : AccountName) (b : ℚ) (h : k' ≠ k) :
    lookupSheet (add_entry s k nm b) k' = lookupSheet s k' := by
  simp only [add_entry]
  by_cases hn : (lookupSheet s k).isNone
  · rw [if_pos hn, lookupSheet_updateKey_ne _ h, lookupSheet_append_ne _ h]
  · rw [if_neg hn]
    exact lookupSheet_updateKey_ne _ h

theorem add_entry_assets_brute_entries (s : Sheet) (k : String)
    (nm : AccountName) (b : ℚ) (h : assetish s k) :
    assetColEntries (add_entry_assets s .brute k nm b) k .brute =
      assetColEntries s k .brute ++ [(nm, b)] := by
  unfold assetish at h
  simp only [add_entry_assets]
  cases hl : lookupSheet s k with
  | none =>
    simp only [hl, Option.isNone_none, if_pos]
    have hS := lookupSheet_updateKey_eq
      (s ++ [(k, GroupVal.asset ⟨⟨[], sentinel⟩, ⟨[], sentinel⟩⟩)]) k
      (fun v => match v with
        | .asset g => .asset (colAppend .brute (nm, b) g)
        | .simple g => .simple g)
    rw [lookupSheet_append_eq _ hl] at hS
    simp only [assetColEntries]
    rw [hS]
    simp [colAppend, hl]
  | some v =>
    rw [hl] at h
    cases v with
    | simple g => exact absurd h (by simp)
    | asset g =>
      rw [if_neg (show ¬(((some (GroupVal.asset g)).isNone) = true) by simp)]
      have hS := lookupSheet_updateKey_eq s k
        (fun v => match v with
          | .asset g => .asset (colAppend .brute (nm, b) g)
          | .simple g => .simple g)
      rw [hl] at hS
      simp only [assetColEntries]
      rw [hS]
      simp [colAppend, hl]

theorem add_entry_simple_entries (s : Sheet) (k : String)
    (nm : AccountName) (b : ℚ) (h : simpleish s k) :
    simpleEntries (add_entry s k nm b) k =
      simpleEntries s k ++ [(nm, b)] := by
  unfold simpleish at h
  simp only [add_entry]
  cases hl : lookupSheet s k with
  | none =>
    simp only [hl, Option.isNone_none, if_pos]
    have hS := lookupSheet_updateKey_eq
      (s ++ [(k, GroupVal.simple ⟨[], 0⟩)]) k
      (fun v => match v with
        | .simple g => .simple { g with entries := g.entries ++ [(nm, b)] }
        | .asset g => .asset g)
    rw [lookupSheet_append_eq _ hl] at hS
    simp only [simpleEntries]
    rw [hS]
    simp [hl]
  | some v =>
    rw [hl] at h
    cases v with
    | asset g => exact absurd h (by simp)
    | simple g =>
      rw [if_neg (show ¬(((some (GroupVal.simple g)).isNone) = true) by simp)]
      have hS := lookupSheet_updateKey_eq s k
        (fun v => match v with
          | .simple g => .simple { g with entries := g.entries ++ [(nm, b)] }
          | .asset g => .asset g)
      rw [hl] at hS
      simp only [simpleEntries]
      rw [hS]
      simp [hl]

theorem build_assets_4091 (s : Sheet) (nm : AccountName) (b : ℚ)
    (h : nm.take 4 = ['4','0','9','1']) :
    build_assets s nm b = add_entry_assets s .brute "avances" nm b := by
  obtain ⟨r, rfl⟩ := take_four_shape h
  simp [build_assets, add_to_assets, take_eq_hasPfx2, take_eq_hasPfx3,
    take_eq_hasPfx4, take_eq_iff_hasPfx, hasPfx]

theorem build_liabilities_4191 (s : Sheet) (nm : AccountName) (b : ℚ)
    (h : nm.take 4 = ['4','1','9','1']) :
    build_liabilities s nm b =
      if b < 0 then add_entry s "dettes_avances" nm b else s := by
  obtain ⟨r, rfl⟩ := take_four_shape h
  simp [build_liabilities, add_to_sheet, take_eq_hasPfx2, take_eq_hasPfx3,
    take_eq_hasPfx4, take_eq_iff_hasPfx, hasPfx]

/-- C1 (amended): prefix specificity holds side by side.  On the asset
side, an account whose code starts with `4091` is always assigned to the
specific rule's group `avances` (gross column) and the general `40`
rule's asset group `creances_autres` is left untouched, for every balance
sign; on the liability side, an account whose code starts with `4191` is
assigned (when its balance is negative) to the specific group
`dettes_avances` and the general `41` rule's liability group
`dettes_autres` is left untouched, for every balance sign.  (The claim's
stronger reading — never assigned under any general rule, on either side
— fails: see the counterexample, where a `4091` account with negative
balance is also assigned to `dettes_fournisseurs` by the liability-side
general `40` rule.) -/
theorem c1_same_side_specificity :
    (∀ (s : Sheet) (nm : AccountName) (b : ℚ),
      nm.take 4 = ['4','0','9','1'] →
      lookupSheet (build_assets s nm b) "creances_autres" =
          lookupSheet s "creances_autres" ∧
        (assetish s "avances" →
          assetColEntries (build_assets s nm b) "avances" .brute =
            assetColEntries s "avances" .brute ++ [(nm, b)])) ∧
    (∀ (s : Sheet) (nm : AccountName) (b : ℚ),
      nm.take 4 = ['4','1','9','1'] →
      lookupSheet (build_liabilities s nm b) "dettes_autres" =
          lookupSheet s "dettes_autres" ∧
        (b < 0 → simpleish s "dettes_avances" →
          simpleEntries (build_liabilities s nm b) "dettes_avances" =
            simpleEntries s "dettes_avances" ++ [(nm, b)])) := by
  constructor
  · intro s nm b h
    rw [build_assets_4091 s nm b h]
    constructor
    · exact add_entry_assets_lookup_ne s .brute nm b (by decide)
    · intro ha
      exact add_entry_assets_brute_entries s _ nm b ha
  · intro s nm b h
    rw [build_liabilities_4191 s nm b h]
    by_cases hb : b < 0
    · simp only [hb, if_pos]
      constructor
      · exact add_entry_lookup_ne s nm b (by decide)
      · intro _ hs
        exact add_entry_simple_entries s _ nm b hs
    · rw [if_neg hb]
      exact ⟨rfl, fun hc _ => absurd hc hb⟩

/-- Witness for C1: the amended theorem applied to the concrete accounts
`40910` (balance 7) and `4191` (balance −2) on the empty sheet. -/
theorem c1_same_side_specificity_witness :
    (lookupSheet (build_assets [] ['4','0','9','1','0'] 7) "creances_autres" =
        lookupSheet ([] : Sheet) "creances_autres" ∧
      assetColEntries (build_assets [] ['4','0','9','1','0'] 7) "avances" .brute =
        assetColEntries ([] : Sheet) "avances" .brute ++ [(['4','0','9','1','0'], 7)]) ∧
    (lookupSheet (build_liabilities [] ['4','1','9','1'] (-2)) "dettes_autres" =
        lookupSheet ([] : Sheet) "dettes_autres" ∧
      simpleEntries (build_liabilities [] ['4','1','9','1'] (-2)) "dettes_avances" =
        simpleEntries ([] : Sheet) "dettes_avances" ++ [(['4','1','9','1'], -2)]) := by
  constructor
  · have h := c1_same_side_specificity.1 [] ['4','0','9','1','0'] 7 (by decide)
    exact ⟨h.1, h.2 trivial⟩
  · have h := c1_same_side_specificity.2 [] ['4','1','9','1'] (-2) (by decide)
    exact ⟨h.1, h.2 (by decide) trivial⟩

/-- C2: sign-conditional routing.  For every account whose code prefix is
covered by both a positive-balance rule and a negative-balance rule (the
prefixes `40`–`46` and `51`, excluding `4091`-prefixed codes, which no
positive-conditioned rule covers), a single-account run places the
account in exactly one statement group: with balance `x > 0` in exactly
one asset-side group (gross column, total `x`), and with balance `-x` in
exactly one liability-side group (total `-x`) — the group moves to the
other side and the magnitude is preserved. -/
theorem c2_sign_conditional_routing (nm : AccountName) (x : ℚ) (hx : 0 < x)
    (hcov : nm.take 2 = ['4','0'] ∨ nm.take 2 = ['4','1'] ∨ nm.take 2 = ['4','2'] ∨
      nm.take 2 = ['4','3'] ∨ nm.take 2 = ['4','4'] ∨ nm.take 2 = ['4','5'] ∨
      nm.take 2 = ['4','6'] ∨ nm.take 2 = ['5','1'])
    (h9 : nm.take 4 ≠ ['4','0','9','1']) :
    ∃ g1 g2,
      sum_all_entries (oneAccountSheet nm x) =
        [(g1, GroupVal.asset ⟨⟨[(nm, x)], x⟩, ⟨[], 0⟩⟩)] ∧
      sum_all_entries (oneAccountSheet nm (-x)) =
        [(g2, GroupVal.simple ⟨[(nm, -x)], -x⟩)] ∧
      g1 ≠ g2 := by
  have hneg : -x < 0 := neg_neg_of_pos hx
  have hnx : ¬ x < 0 := not_lt.mpr hx.le
  have hnp : ¬ (0:ℚ) < -x := not_lt.mpr hneg.le
  rcases hcov with h | h | h | h | h | h | h | h
  · obtain ⟨r, rfl⟩ := take_two_shape h
    simp only [ne_eq, take_eq_hasPfx4, hasPfx, Bool.and_eq_true, beq_iff_eq,
      true_and, Bool.not_eq_true] at h9
    refine ⟨"creances_autres", "dettes_fournisseurs", ?_, ?_, by decide⟩
    · simp [oneAccountSheet, build_assets, build_liabilities, build_p_l,
        add_to_assets, add_to_sheet, take_eq_hasPfx2, take_eq_hasPfx3,
        take_eq_hasPfx4, take_eq_iff_hasPfx, hasPfx, add_entry_assets,
        add_entry, lookupSheet, updateKey, colAppend, sum_all_entries,
        sum_entries, qadd_eq, hx, hnx, h9]
    · simp [oneAccountSheet, build_assets, build_liabilities, build_p_l,
        add_to_assets, add_to_sheet, take_eq_hasPfx2, take_eq_hasPfx3,
        take_eq_hasPfx4, take_eq_iff_hasPfx, hasPfx, add_entry_assets,
        add_entry, lookupSheet, updateKey, colAppend, sum_all_entries,
        sum_entries, qadd_eq, hneg, hnp, h9]
  · obtain ⟨r, rfl⟩ := take_two_shape h
    by_cases h19 : hasPfx r ['9','1'] = true
    · refine ⟨"creances_clients", "dettes_avances", ?_, ?_, by decide⟩
      · simp [oneAccountSheet, build_assets, build_liabilities, build_p_l,
          add_to_assets, add_to_sheet, take_eq_hasPfx2, take_eq_hasPfx3,
          take_eq_hasPfx4, take_eq_iff_hasPfx, hasPfx, add_entry_assets,
          add_entry, lookupSheet, updateKey, colAppend, sum_all_entries,
          sum_entries, qadd_eq, hx, hnx, h19]
      · simp [oneAccountSheet, build_assets, build_liabilities, build_p_l,
          add_to_assets, add_to_sheet, take_eq_hasPfx2, take_eq_hasPfx3,
          take_eq_hasPfx4, take_eq_iff_hasPfx, hasPfx, add_entry_assets,
          add_entry, lookupSheet, updateKey, colAppend, sum_all_entries,
          sum_entries, qadd_eq, hneg, hnp, h19]
    · have h19f : hasPfx r ['9','1'] = false := by
        simpa using h19
      refine ⟨"creances_clients", "dettes_autres", ?_, ?_, by decide⟩
      · simp [oneAccountSheet, build_assets, build_liabilities, build_p_l,
          add_to_assets, add_to_sheet, take_eq_hasPfx2, take_eq_hasPfx3,
          take_eq_hasPfx4, take_eq_iff_hasPfx, hasPfx, add_entry_assets,
          add_entry, lookupSheet, updateKey, colAppend, sum_all_entries,
          sum_entries, qadd_eq, hx, hnx, h19f]
      · simp [oneAccountSheet, build_assets, build_liabilities, build_p_l,
          add_to_assets, add_to_sheet, take_eq_hasPfx2, take_eq_hasPfx3,
          take_eq_hasPfx4, take_eq_iff_hasPfx, hasPfx, add_entry_assets,
          add_entry, lookupSheet, updateKey, colAppend, sum_all_entries,
          sum_entries, qadd_eq, hneg, hnp, h19f]
  · obtain ⟨r, rfl⟩ := take_two_shape h
    refine ⟨"creances_autres", "dettes_autres", ?_, ?_, by decide⟩
    · simp [oneAccountSheet, build_assets, build_liabilities, build_p_l,
        add_to_assets, add_to_sheet, take_eq_hasPfx2, take_eq_hasPfx3,
        take_eq_hasPfx4, take_eq_iff_hasPfx, hasPfx, add_entry_assets,
        add_entry, lookupSheet, updateKey, colAppend, sum_all_entries,
        sum_entries, qadd_eq, hx, hnx]
    · simp [oneAccountSheet, build_assets, build_liabilities, build_p_l,
        add_to_assets, add_to_sheet, take_eq_hasPfx2, take_eq_hasPfx3,
        take_eq_hasPfx4, take_eq_iff_hasPfx, hasPfx, add_entry_assets,
        add_entry, lookupSheet, updateKey, colAppend, sum_all_entries,
        sum_entries, qadd_eq, hneg, hnp]
  · obtain ⟨r, rfl⟩ := take_two_shape h
    refine ⟨"creances_autres", "dettes_autres", ?_, ?_, by decide⟩
    · simp [oneAccountSheet, build_assets, build_liabilities, build_p_l,
        add_to_assets, add_to_sheet, take_eq_hasPfx2, take_eq_hasPfx3,
        take_eq_hasPfx4, take_eq_iff_hasPfx, hasPfx, add_entry_assets,
        add_entry, lookupSheet, updateKey, colAppend, sum_all_entries,
        sum_entries, qadd_eq, hx, hnx]
    · simp [oneAccountSheet, build_assets, build_liabilities, build_p_l,
        add_to_assets, add_to_sheet, take_eq_hasPfx2, take_eq_hasPfx3,
        take_eq_hasPfx4, take_eq_iff_hasPfx, hasPfx, add_entry_assets,
        add_entry, lookupSheet, updateKey, colAppend, sum_all_entries,
        sum_entries, qadd_eq, hneg, hnp]
  · obtain ⟨r, rfl⟩ := take_two_shape h
    refine ⟨"creances_autres", "dettes_autres", ?_, ?_, by decide⟩
    · simp [oneAccountSheet, build_assets, build_liabilities, build_p_l,
        add_to_assets, add_to_sheet, take_eq_hasPfx2, take_eq_hasPfx3,
        take_eq_hasPfx4, take_eq_iff_hasPfx, hasPfx, add_entry_assets,
        add_entry, lookupSheet, updateKey, colAppend, sum_all_entries,
        sum_entries, qadd_eq, hx, hnx]
    · simp [oneAccountSheet, build_assets, build_liabilities, build_p_l,
        add_to_assets, add_to_sheet, take_eq_hasPfx2, take_eq_hasPfx3,
        take_eq_hasPfx4, take_eq_iff_hasPfx, hasPfx, add_entry_assets,
        add_entry, lookupSheet, updateKey, colAppend, sum_all_entries,
        sum_entries, qadd_eq, hneg, hnp]
  · obtain ⟨r, rfl⟩ := take_two_shape h
    refine ⟨"creances_autres", "dettes_autres", ?_, ?_, by decide⟩
    · simp [oneAccountSheet, build_assets, build_liabilities, build_p_l,
        add_to_assets, add_to_sheet, take_eq_hasPfx2, take_eq_hasPfx3,
        take_eq_hasPfx4, take_eq_iff_hasPfx, hasPfx, add_entry_assets,
        add_entry, lookupSheet, updateKey, colAppend, sum_all_entries,
        sum_entries, qadd_eq, hx, hnx]
    · simp [oneAccountSheet, build_assets, build_liabilities, build_p_l,
        add_to_assets, add_to_sheet, take_eq_hasPfx2, take_eq_hasPfx3,
        take_eq_hasPfx4, take_eq_iff_hasPfx, hasPfx, add_entry_assets,
        add_entry, lookupSheet, updateKey, colAppend, sum_all_entries,
        sum_entries, qadd_eq, hneg, hnp]
  · obtain ⟨r, rfl⟩ := take_two_shape h
    refine ⟨"creances_autres", "dettes_autres", ?_, ?_, by decide⟩
    · simp [oneAccountSheet, build_assets, build_liabilities, build_p_l,
        add_to_assets, add_to_sheet, take_eq_hasPfx2, take_eq_hasPfx3,
        take_eq_hasPfx4, take_eq_iff_hasPfx, hasPfx, add_entry_assets,
        add_entry, lookupSheet, updateKey, colAppend, sum_all_entries,
        sum_entries, qadd_eq, hx, hnx]
    · simp [oneAccountSheet, build_assets, build_liabilities, build_p_l,
        add_to_assets, add_to_sheet, take_eq_hasPfx2, take_eq_hasPfx3,
        take_eq_hasPfx4, take_eq_iff_hasPfx, hasPfx, add_entry_assets,
        add_entry, lookupSheet, updateKey, colAppend, sum_all_entries,
        sum_entries, qadd_eq, hneg, hnp]
  · obtain ⟨r, rfl⟩ := take_two_shape h
    refine ⟨"disponibilite_non_caisse", "dettes_emprunts", ?_, ?_, by decide⟩
    · simp [oneAccountSheet, build_assets, build_liabilities, build_p_l,
        add_to_assets, add_to_sheet, take_eq_hasPfx2, take_eq_hasPfx3,
        take_eq_hasPfx4, take_eq_iff_hasPfx, hasPfx, add_entry_assets,
        add_entry, lookupSheet, updateKey, colAppend, sum_all_entries,
        sum_entries, qadd_eq, hx, hnx]
    · simp [oneAccountSheet, build_assets, build_liabilities, build_p_l,
        add_to_assets, add_to_sheet, take_eq_hasPfx2, take_eq_hasPfx3,
        take_eq_hasPfx4, take_eq_iff_hasPfx, hasPfx, add_entry_assets,
        add_entry, lookupSheet, updateKey, colAppend, sum_all_entries,
        sum_entries, qadd_eq, hneg, hnp]

/-- Witness for C2: the account `512` with balances `+100` and `-100`. -/
theorem c2_sign_conditional_routing_witness :
    ∃ g1 g2,
      sum_all_entries (oneAccountSheet ['5','1','2'] 100) =
        [(g1, GroupVal.asset ⟨⟨[(['5','1','2'], 100)], 100⟩, ⟨[], 0⟩⟩)] ∧
      sum_all_entries (oneAccountSheet ['5','1','2'] (-100)) =
        [(g2, GroupVal.simple ⟨[(['5','1','2'], -100)], -100⟩)] ∧
      g1 ≠ g2 :=
  c2_sign_conditional_routing ['5','1','2'] 100 (by decide)
    (by decide) (by decide)

/-- Counterexample for C1 as frozen: the account `4091` with balance −1
is assigned to the specific rule's group `avances` (asset side) *and* to
`dettes_fournisseurs`, the group of the liability-side general `40` rule
(`build_liabilities` line 306 has no `4091` exclusion) — so for a
negative balance the account is not assigned "only to the specific
rule's group". -/
theorem c1_counterexample :
    oneAccountSheet ['4','0','9','1'] (-1) =
      [("avances", GroupVal.asset ⟨⟨[(['4','0','9','1'], -1)], sentinel⟩, ⟨[], sentinel⟩⟩),
       ("dettes_fournisseurs", GroupVal.simple ⟨[(['4','0','9','1'], -1)], 0⟩)] := by
  decide

theorem foldl_qadd_eq_sum (l : List ℚ) (c : ℚ) :
    l.foldl qadd c = c + l.sum := by
  induction l generalizing c with
  | nil => simp
  | cons x t ih =>
    simp only [List.foldl_cons, List.sum_cons, ih, qadd_eq]
    ring

theorem pySum_qadd (l : List ℚ) : pySum qadd l = l.sum := by
  simp [pySum, foldl_qadd_eq_sum]

theorem itemSum_append_item (l : List OutLine) (lbl : String) (bu v : ℚ) :
    itemSum qadd (l ++ [OutLine.item lbl bu v]) = itemSum qadd l + v := by
  simp [itemSum, pySum_qadd, List.filterMap_append]

/-- C3 (amended): `get_balance_sheet` computes
`result = -(sum_income + sum_expenses)` from the displayed item lines and
appends the result line to the *expense* column unconditionally (not to
whichever side is short); afterwards the expense-column item total
including the result line equals the negated income-column item total,
exactly.  (Exact-decimal instantiation of the summation.) -/
theorem c3_result_line_closure (cfg : List CfgLine × List CfgLine)
    (balances : List (AccountName × ℚ)) :
    ∃ res,
      (get_balance_sheet qadd cfg balances).1.1 =
        compute_balance_sheet_list qadd cfg.1 balances ++
          [OutLine.item resultLabel 0 res] ∧
      (get_balance_sheet qadd cfg balances).1.2 =
        compute_balance_sheet_list qadd cfg.2 balances ∧
      itemSum qadd (get_balance_sheet qadd cfg balances).1.1 =
        -(itemSum qadd (get_balance_sheet qadd cfg balances).1.2) := by
  refine ⟨-(qadd (itemSum qadd (compute_balance_sheet_list qadd cfg.2 balances))
      (itemSum qadd (compute_balance_sheet_list qadd cfg.1 balances))), ?_, ?_, ?_⟩
  · simp [get_balance_sheet, get_balance_sheet_as_list]
  · simp [get_balance_sheet, get_balance_sheet_as_list]
  · simp only [get_balance_sheet, get_balance_sheet_as_list]
    rw [itemSum_append_item]
    rw [qadd_eq]
    ring

/-- Counterexample for C3 as frozen: with expense account `606` at 100
and income account `706` at −30, the income side (magnitude 30) is the
short side, yet the result line (value −70) is appended to the expense
column, not injected into the short income side. -/
theorem c3_counterexample :
    (get_balance_sheet qadd
        ([CfgLine.item "frais" 0 [['6','0','6']]],
         [CfgLine.item "dons" 0 [['7','0','6']]])
        [(['6','0','6'], 100), (['7','0','6'], -30)]) =
      (([OutLine.item "frais" 0 100,
         OutLine.item resultLabel 0 (-70)],
        [OutLine.item "dons" 0 (-30)]),
       []) ∧
    (30:ℚ) < 100 := by
  constructor
  · decide
  · decide

/-- C4: additivity of group totals.  The bilan variant (`sum_entries`,
exact `Decimal` arithmetic) sums ten entries of `0.10` to exactly
`1.00`, and the exact-decimal instantiation of the suivie variant
agrees; but the suivie script actually sums pandas binary64 floats
(modelled by `fadd`, 53-bit round-to-nearest addition on the correctly
rounded parse of `0.10`), and on that code path the same ten accounts
do not total exactly `1.00` — the claim's "no floating-point drift"
fails on the code as written. -/
theorem c4_float_drift :
    (sum_entries
        ⟨(List.map (fun c => (c, mkRat 1 10))
            [['6','0','1'], ['6','0','2'], ['6','0','3'], ['6','0','4'], ['6','0','5'],
             ['6','0','6'], ['6','0','7'], ['6','0','8'], ['6','0','9'], ['6','1','0']]),
         0⟩).balance = 1 ∧
    compute_balance_sheet_list qadd
        [CfgLine.item "achats" 0
          [['6','0','1'], ['6','0','2'], ['6','0','3'], ['6','0','4'], ['6','0','5'],
           ['6','0','6'], ['6','0','7'], ['6','0','8'], ['6','0','9'], ['6','1','0']]]
        (List.map (fun c => (c, mkRat 1 10))
          [['6','0','1'], ['6','0','2'], ['6','0','3'], ['6','0','4'], ['6','0','5'],
           ['6','0','6'], ['6','0','7'], ['6','0','8'], ['6','0','9'], ['6','1','0']]) =
      [OutLine.item "achats" 0 1] ∧
    compute_balance_sheet_list fadd
        [CfgLine.item "achats" 0
          [['6','0','1'], ['6','0','2'], ['6','0','3'], ['6','0','4'], ['6','0','5'],
           ['6','0','6'], ['6','0','7'], ['6','0','8'], ['6','0','9'], ['6','1','0']]]
        (List.map (fun c => (c, fl (mkRat 1 10)))
          [['6','0','1'], ['6','0','2'], ['6','0','3'], ['6','0','4'], ['6','0','5'],
           ['6','0','6'], ['6','0','7'], ['6','0','8'], ['6','0','9'], ['6','1','0']]) ≠
      [OutLine.item "achats" 0 1] := by
  refine ⟨by decide, by decide, by decide⟩

/-- C7: the sentinel is real at instantiation time — a freshly created
assets group carries `-3.1415` (≠ 0) in both sub-columns — but
`sum_all_entries` unconditionally overwrites every sub-column balance
with the sum of its entries, so an empty sub-column ends the run with
total `0`, indistinguishable from a true zero: classifying the single
account `206` (balance 5) leaves the `amort` sub-column empty, and after
summation its total is `0`, contradicting the claim that it "never ends
the run with total equal to 0". -/
theorem c7_sentinel_overwritten :
    oneAccountSheet ['2','0','6'] 5 =
      [("immo_incorp__fonds_commercial",
        GroupVal.asset ⟨⟨[(['2','0','6'], 5)], sentinel⟩, ⟨[], sentinel⟩⟩)] ∧
    sentinel ≠ 0 ∧
    sum_all_entries (oneAccountSheet ['2','0','6'] 5) =
      [("immo_incorp__fonds_commercial",
        GroupVal.asset ⟨⟨[(['2','0','6'], 5)], 5⟩, ⟨[], 0⟩⟩)] := by
  refine ⟨by decide, by decide, by decide⟩

/-- C5: the consistency check is advisory.  Whenever the totals
recomputed directly from the snapshot (accounts whose code starts with
`'6'`, resp. `'7'`) disagree — after rounding to two decimal places —
with the item totals of the aggregated statement, the returned report
contains the imbalance warning carrying both pairs of figures, and the
statement is still computed and returned unchanged.  Stated for an
arbitrary addition operator, covering both the exact-decimal semantics
and the float64 semantics the script executes. -/
theorem c5_imbalance_warning_advisory (add : ℚ → ℚ → ℚ)
    (cfg : List CfgLine × List CfgLine) (balances : List (AccountName × ℚ))
    (h : round2 (account_expenses add balances) ≠
        round2 (itemSum add (compute_balance_sheet_list add cfg.1 balances)) ∨
      round2 (account_income add balances) ≠
        round2 (itemSum add (compute_balance_sheet_list add cfg.2 balances))) :
    Warning.imbalance (account_expenses add balances) (account_income add balances)
        (itemSum add (compute_balance_sheet_list add cfg.1 balances))
        (itemSum add (compute_balance_sheet_list add cfg.2 balances)) ∈
      (get_balance_sheet_as_list add cfg balances).2 ∧
    (get_balance_sheet_as_list add cfg balances).1 =
      (compute_balance_sheet_list add cfg.1 balances,
       compute_balance_sheet_list add cfg.2 balances) := by
  constructor
  · simp only [get_balance_sheet_as_list]
    rw [if_pos h]
    simp
  · rfl

/-- Witness for C5: a snapshot holding account `60` at 5 against an
empty config triggers the imbalance warning while the (empty) statement
is still returned. -/
theorem c5_imbalance_warning_advisory_witness :
    Warning.imbalance (account_expenses qadd [(['6','0'], 5)])
        (account_income qadd [(['6','0'], 5)])
        (itemSum qadd (compute_balance_sheet_list qadd [] [(['6','0'], 5)]))
        (itemSum qadd (compute_balance_sheet_list qadd [] [(['6','0'], 5)])) ∈
      (get_balance_sheet_as_list qadd ([], []) [(['6','0'], 5)]).2 ∧
    (get_balance_sheet_as_list qadd ([], []) [(['6','0'], 5)]).1 =
      (compute_balance_sheet_list qadd [] [(['6','0'], 5)],
       compute_balance_sheet_list qadd [] [(['6','0'], 5)]) :=
  c5_imbalance_warning_advisory qadd ([], []) [(['6','0'], 5)] (Or.inl (by decide))

theorem configAccounts_go (lines : List CfgLine) (init : List AccountName) :
    lines.foldl (fun acc l => match l with
      | CfgLine.item _ _ accs => acc ++ accs
      | CfgLine.title _ => acc) init = init ++ configAccounts lines := by
  induction lines generalizing init with
  | nil => simp [configAccounts]
  | cons l t ih =>
    cases l with
    | title s =>
      show List.foldl _ init t = init ++ List.foldl _ [] (CfgLine.title s :: t)
      rw [List.foldl_cons]
      exact ih init
    | item lbl bu accs =>
      show List.foldl _ (init ++ accs) t =
        init ++ List.foldl _ [] (CfgLine.item lbl bu accs :: t)
      rw [List.foldl_cons]
      rw [ih (init ++ accs)]
      show init ++ accs ++ configAccounts t = init ++ List.foldl _ ([] ++ accs) t
      rw [List.nil_append, ih accs]
      rw [List.append_assoc]

theorem configAccounts_cons (l : CfgLine) (t : List CfgLine) :
    configAccounts (l :: t) =
      (match l with
        | CfgLine.item _ _ accs => accs
        | CfgLine.title _ => []) ++ configAccounts t := by
  cases l with
  | title s =>
    show List.foldl _ [] t = [] ++ configAccounts t
    rw [List.nil_append]
    rfl
  | item lbl bu accs =>
    show List.foldl _ ([] ++ accs) t = accs ++ configAccounts t
    rw [List.nil_append]
    exact configAccounts_go t accs

theorem not_mem_configAccounts {lines : List CfgLine} {a : AccountName}
    (h : a ∉ configAccounts lines) {lbl : String} {bu : ℚ}
    {accs : List AccountName}
    (hl : CfgLine.item lbl bu accs ∈ lines) : a ∉ accs := by
  induction lines with
  | nil => simp at hl
  | cons l t ih =>
    rw [configAccounts_cons, List.mem_append] at h
    push_neg at h
    rcases List.mem_cons.mp hl with heq | htl
    · subst heq
      exact h.1
    · exact ih h.2 htl

theorem lineBalance_filter_ne (add : ℚ → ℚ → ℚ) (accs : List AccountName)
    (balances : List (AccountName × ℚ)) (a : AccountName) (ha : a ∉ accs) :
    lineBalance add accs (balances.filter (fun p => decide (¬ p.1 = a))) =
      lineBalance add accs balances := by
  unfold lineBalance
  rw [List.filter_filter]
  congr 1
  congr 1
  apply List.filter_congr
  intro p _
  by_cases hp : p.1 = a
  · subst hp
    simp [ha]
  · simp [hp]

/-- C6: missing-account detection.  Every snapshot account whose code
starts with `'6'` or `'7'` and which appears in no config line's account
list is reported in the missing-accounts warning of the returned report,
and removing the account from the snapshot changes no computed statement
line — its balance contributes to no group total; the statement is still
computed and returned. -/
theorem c6_missing_account_detection (add : ℚ → ℚ → ℚ)
    (cfg : List CfgLine × List CfgLine) (balances : List (AccountName × ℚ))
    (a : AccountName)
    (hmem : a ∈ balances.map Prod.fst)
    (h67 : headIs '6' a = true ∨ headIs '7' a = true)
    (hnc : a ∉ configAccounts (cfg.1 ++ cfg.2)) :
    (∃ m, Warning.missingAccounts m ∈ (get_balance_sheet_as_list add cfg balances).2 ∧
      a ∈ m) ∧
    compute_balance_sheet_list add cfg.1 balances =
      compute_balance_sheet_list add cfg.1
        (balances.filter (fun p => decide (¬ p.1 = a))) ∧
    compute_balance_sheet_list add cfg.2 balances =
      compute_balance_sheet_list add cfg.2
        (balances.filter (fun p => decide (¬ p.1 = a))) := by
  refine ⟨?_, ?_, ?_⟩
  · have hie : a ∈ (balances.map (fun p => p.1)).filter
        (fun x => headIs '6' x || headIs '7' x) := by
      rw [List.mem_filter]
      refine ⟨by simpa using hmem, ?_⟩
      rcases h67 with h6 | h7
      · simp [h6]
      · simp [h7]
    have hmiss : a ∈ (((balances.map (fun p => p.1)).filter
        (fun x => headIs '6' x || headIs '7' x)).filter
          (fun x => decide (x ∉ configAccounts (cfg.1 ++ cfg.2)))).dedup := by
      rw [List.mem_dedup, List.mem_filter]
      exact ⟨hie, by simpa using hnc⟩
    refine ⟨_, ?_, hmiss⟩
    simp only [get_balance_sheet_as_list, scan_for_missing_accounts]
    rw [List.mem_append]
    right
    rw [if_pos (List.ne_nil_of_mem hmiss)]
    exact List.mem_singleton.mpr rfl
  · unfold compute_balance_sheet_list
    apply List.map_congr_left
    intro l hl
    cases l with
    | title t => rfl
    | item lbl bu accs =>
      have ha : a ∉ accs :=
        not_mem_configAccounts hnc (List.mem_append.mpr (Or.inl hl))
      simp only [lineBalance_filter_ne add accs balances a ha]
  · unfold compute_balance_sheet_list
    apply List.map_congr_left
    intro l hl
    cases l with
    | title t => rfl
    | item lbl bu accs =>
      have ha : a ∉ accs :=
        not_mem_configAccounts hnc (List.mem_append.mpr (Or.inr hl))
      simp only [lineBalance_filter_ne add accs balances a ha]

/-- Witness for C6: account `700` (balance 3) absent from a config that
only lists `601`. -/
theorem c6_missing_account_detection_witness :
    (∃ m, Warning.missingAccounts m ∈
        (get_balance_sheet_as_list qadd
          ([CfgLine.item "x" 0 [['6','0','1']]], [])
          [(['7','0','0'], 3), (['6','0','1'], 2)]).2 ∧
      ['7','0','0'] ∈ m) ∧
    compute_balance_sheet_list qadd [CfgLine.item "x" 0 [['6','0','1']]]
        [(['7','0','0'], 3), (['6','0','1'], 2)] =
      compute_balance_sheet_list qadd [CfgLine.item "x" 0 [['6','0','1']]]
        ([(['7','0','0'], 3), (['6','0','1'], 2)].filter
          (fun p => decide (¬ p.1 = ['7','0','0']))) ∧
    compute_balance_sheet_list qadd []
        [(['7','0','0'], 3), (['6','0','1'], 2)] =
      compute_balance_sheet_list qadd []
        ([(['7','0','0'], 3), (['6','0','1'], 2)].filter
          (fun p => decide (¬ p.1 = ['7','0','0']))) :=
  c6_missing_account_detection qadd
    ([CfgLine.item "x" 0 [['6','0','1']]], [])
    [(['7','0','0'], 3), (['6','0','1'], 2)]
    ['7','0','0'] (by decide) (Or.inr (by decide)) (by decide)

/-- C9: the snapshot is a read-only input.  Threading the snapshot
through the run state exactly as the scripts do (they assign only to the
sheet, resp. the output, never to the snapshot dict), both pipelines
return the snapshot component unchanged, and their results are the pure
functions of the snapshot value. -/
theorem c9_snapshot_not_mutated (st : BilanState) (add : ℚ → ℚ → ℚ)
    (cfg : List CfgLine × List CfgLine) (st2 : SuivieState) :
    (construct_reports_state st).accounts = st.accounts ∧
    (construct_reports_state st).sheet =
      construct_reports_sheet st.accounts st.sheet ∧
    (get_balance_sheet_state add cfg st2).balances = st2.balances ∧
    (get_balance_sheet_state add cfg st2).output =
      some (get_balance_sheet add cfg st2.balances) :=
  ⟨rfl, rfl, rfl, rfl⟩

theorem lineBalance_cons_mem (accs : List AccountName)
    (a : AccountName) (v : ℚ) (t : List (AccountName × ℚ)) (h : a ∈ accs) :
    lineBalance qadd accs ((a, v) :: t) = v + lineBalance qadd accs t := by
  unfold lineBalance
  rw [List.filter_cons]
  simp [h, pySum_qadd]

theorem lineBalance_cons_not_mem (add : ℚ → ℚ → ℚ) (accs : List AccountName)
    (a : AccountName) (v : ℚ) (t : List (AccountName × ℚ)) (h : a ∉ accs) :
    lineBalance add accs ((a, v) :: t) = lineBalance add accs t := by
  unfold lineBalance
  rw [List.filter_cons]
  simp [h]

/-- C10: budget-tracking aggregation is by exact set membership of the
account code, not by prefix.  An account listed in the account lists of
two different config lines contributes its full balance to both lines'
totals, and an account not listed in a line's account list (even one
whose code extends a listed code) contributes nothing to that line. -/
theorem c10_exact_membership (lbl1 lbl2 : String) (b1 b2 : ℚ)
    (as1 as2 : List AccountName) (a : AccountName) (v : ℚ)
    (t : List (AccountName × ℚ))
    (h1 : a ∈ as1) (h2 : a ∈ as2) :
    compute_balance_sheet_list qadd
        [CfgLine.item lbl1 b1 as1, CfgLine.item lbl2 b2 as2] ((a, v) :: t) =
      [OutLine.item lbl1 b1 (v + lineBalance qadd as1 t),
       OutLine.item lbl2 b2 (v + lineBalance qadd as2 t)] ∧
    (∀ accs : List AccountName, a ∉ accs →
      lineBalance qadd accs ((a, v) :: t) = lineBalance qadd accs t) := by
  constructor
  · simp [compute_balance_sheet_list, lineBalance_cons_mem as1 a v t h1,
      lineBalance_cons_mem as2 a v t h2]
  · intro accs ha
    exact lineBalance_cons_not_mem qadd accs a v t ha

/-- Witness for C10: account `601` (balance 2) listed on both config
lines contributes 2 to both totals. -/
theorem c10_exact_membership_witness :
    compute_balance_sheet_list qadd
        [CfgLine.item "un" 0 [['6','0','1']],
         CfgLine.item "deux" 0 [['6','0','1'], ['6','0','2']]]
        ((['6','0','1'], 2) :: [(['6','0','2'], 3)]) =
      [OutLine.item "un" 0
        (2 + lineBalance qadd [['6','0','1']] [(['6','0','2'], 3)]),
       OutLine.item "deux" 0
        (2 + lineBalance qadd [['6','0','1'], ['6','0','2']] [(['6','0','2'], 3)])] ∧
    (∀ accs : List AccountName, ['6','0','1'] ∉ accs →
      lineBalance qadd accs ((['6','0','1'], 2) :: [(['6','0','2'], 3)]) =
        lineBalance qadd accs [(['6','0','2'], 3)]) :=
  c10_exact_membership "un" "deux" 0 0
    [['6','0','1']] [['6','0','1'], ['6','0','2']]
    ['6','0','1'] 2 [(['6','0','2'], 3)] (by decide) (by decide)

theorem filter_key_length_le_one (l : List (AccountName × ℚ)) (a : AccountName)
    (h : (l.map Prod.fst).Nodup) :
    (l.filter (fun p => decide (p.1 = a))).length ≤ 1 := by
  induction l with
  | nil => simp
  | cons p t ih =>
    simp only [List.map_cons, List.nodup_cons] at h
    rw [List.filter_cons]
    by_cases hp : p.1 = a
    · simp only [hp, decide_True, if_pos]
      have hnil : t.filter (fun p => decide (p.1 = a)) = [] := by
        rw [List.filter_eq_nil_iff]
        intro q hq
        simp only [decide_eq_true_eq]
        intro hqa
        exact h.1 (by rw [hp, ← hqa]; exact List.mem_map_of_mem Prod.fst hq)
      simp [hnil]
    · simp only [hp, decide_False]
      simpa using ih h.2

theorem perm_eq_of_length_le_one {l₁ l₂ : List (AccountName × ℚ)}
    (h : List.Perm l₁ l₂) (hl : l₁.length ≤ 1) : l₁ = l₂ := by
  cases l₁ with
  | nil => exact (List.Perm.nil_eq h).symm ▸ rfl
  | cons x t =>
    cases t with
    | nil => exact (List.perm_singleton.mp h.symm).symm
    | cons y u => simp at hl

theorem lastVal_perm {l l' : List (AccountName × ℚ)} (h : List.Perm l l')
    (hnodup : (l.map Prod.fst).Nodup) (a : AccountName) :
    lastVal l a = lastVal l' a := by
  unfold lastVal
  rw [perm_eq_of_length_le_one (h.filter (fun p => decide (p.1 = a)))
    (filter_key_length_le_one l a hnodup)]


/-- C8: presentation order.  The rows of a simple section are the
entries sorted by Python tuple comparison (account code first), so the
presented sequence is sorted and depends only on the multiset of
`(account, balance)` pairs, not on the snapshot's iteration order; the
rows of a two-column assets section are presented in sorted account-code
order and, when account codes are unique within each sub-column (as the
disjoint rule prefixes guarantee), they too are invariant under
reordering of the sub-columns' entry lists. -/
theorem c8_presented_order (g g' : EntriesGroup)
    (hperm : List.Perm g.entries g'.entries)
    (ag ag' : AssetGroup)
    (hb : List.Perm ag.brute.entries ag'.brute.entries)
    (ha : List.Perm ag.amort.entries ag'.amort.entries)
    (hnodupB : (ag.brute.entries.map Prod.fst).Nodup)
    (hnodupA : (ag.amort.entries.map Prod.fst).Nodup) :
    (simpleRows g).Sorted pairLe ∧
    simpleRows g = simpleRows g' ∧
    ((assetRows ag).map (fun r => r.1)).Sorted (· ≤ ·) ∧
    assetRows ag = assetRows ag' := by
  refine ⟨?_, ?_, ?_, ?_⟩
  · exact List.sorted_insertionSort pairLe g.entries
  · exact List.eq_of_perm_of_sorted
      (((List.perm_insertionSort pairLe g.entries).trans hperm).trans
        (List.perm_insertionSort pairLe g'.entries).symm)
      (List.sorted_insertionSort pairLe g.entries)
      (List.sorted_insertionSort pairLe g'.entries)
  · unfold assetRows
    rw [List.map_map]
    simpa [Function.comp_def] using
      List.sorted_insertionSort (fun x1 x2 => x1 ≤ x2) (assetKeys ag)
  · unfold assetRows
    have hk : List.Perm (assetKeys ag) (assetKeys ag') := by
      unfold assetKeys
      exact ((hb.map Prod.fst).append (ha.map Prod.fst)).dedup
    haveI : IsAntisymm AccountName (fun x1 x2 => x1 ≤ x2) :=
      ⟨fun a b => le_antisymm⟩
    have hkeys : List.insertionSort (fun x1 x2 => x1 ≤ x2) (assetKeys ag) =
        List.insertionSort (fun x1 x2 => x1 ≤ x2) (assetKeys ag') := by
      exact @List.eq_of_perm_of_sorted AccountName (fun x1 x2 => x1 ≤ x2) _ _ _
        (((List.perm_insertionSort _ (assetKeys ag)).trans hk).trans
          (List.perm_insertionSort _ (assetKeys ag')).symm)
        (List.sorted_insertionSort _ (assetKeys ag))
        (List.sorted_insertionSort _ (assetKeys ag'))
    rw [hkeys]
    apply List.map_congr_left
    intro a _
    rw [lastVal_perm hb hnodupB a, lastVal_perm ha hnodupA a]


/-- Witness for C8: two concrete two-entry sections given in opposite
iteration orders produce identical, sorted presented rows. -/
theorem c8_presented_order_witness :
    (simpleRows ⟨[(['4','2'], 5), (['4','1'], 3)], 0⟩).Sorted pairLe ∧
    simpleRows ⟨[(['4','2'], 5), (['4','1'], 3)], 0⟩ =
      simpleRows ⟨[(['4','1'], 3), (['4','2'], 5)], 0⟩ ∧
    ((assetRows ⟨⟨[(['2','1'], 4), (['2','0','6'], 2)], 0⟩, ⟨[(['2','8','1'], 1)], 0⟩⟩).map
      (fun r => r.1)).Sorted (· ≤ ·) ∧
    assetRows ⟨⟨[(['2','1'], 4), (['2','0','6'], 2)], 0⟩, ⟨[(['2','8','1'], 1)], 0⟩⟩ =
      assetRows ⟨⟨[(['2','0','6'], 2), (['2','1'], 4)], 0⟩, ⟨[(['2','8','1'], 1)], 0⟩⟩ :=
  c8_presented_order
    ⟨[(['4','2'], 5), (['4','1'], 3)], 0⟩ ⟨[(['4','1'], 3), (['4','2'], 5)], 0⟩
    (List.Perm.swap _ _ _)
    ⟨⟨[(['2','1'], 4), (['2','0','6'], 2)], 0⟩, ⟨[(['2','8','1'], 1)], 0⟩⟩
    ⟨⟨[(['2','0','6'], 2), (['2','1'], 4)], 0⟩, ⟨[(['2','8','1'], 1)], 0⟩⟩
    (List.Perm.swap _ _ _) (List.Perm.refl _) (by decide) (by decide)

end UNA
